import Mathlib

set_option maxHeartbeats 1000000
set_option maxRecDepth 4000

/-- One observation of the experiment: a dose `x` and a measured response `y`.
Numbers of the program are modelled as exact rationals. -/
structure Obs where
  x : ℚ
  y : ℚ
deriving DecidableEq, Repr

/-- The Emax model with fixed Hill coefficient `h = 1`
(`emaxModel` in `src/src/App.jsx`): `E0 - (den > 0 ? num / den : 0)` with
`num = Emax * dose ^ 1` and `den = ED50 ^ 1 + dose ^ 1`. -/
def emaxModel (dose E0 Emax ED50 : ℚ) : ℚ :=
  let num := Emax * dose ^ (1 : ℕ)
  let den := ED50 ^ (1 : ℕ) + dose ^ (1 : ℕ)
  E0 - (if 0 < den then num / den else 0)

/-- The residual sum of squares over the pointwise pairs, the numeric value the
source computes whenever every access `predicted[i]` is in bounds. -/
def rssVal (observed : List Obs) (predicted : List ℚ) : ℚ :=
  ((observed.zip predicted).map fun p => (p.1.y - p.2) * (p.1.y - p.2)).sum

/-- Index-tracking accumulation of `observed.reduce((sum, obs, i) => ...)`:
`none` models the JavaScript non-finite result (NaN) produced when
`predicted[i]` is `undefined`; once `none`, it propagates. -/
def rssAux (predicted : List ℚ) : ℕ → Option ℚ → List Obs → Option ℚ
  | _, acc, [] => acc
  | i, acc, o :: rest =>
      rssAux predicted (i + 1)
        (acc.bind fun s => (predicted.get? i).map fun pr =>
          s + (o.y - pr) * (o.y - pr)) rest

/-- `calculateRSS` from `src/src/App.jsx`: reduces over `observed` with index,
reading `predicted[i]`; an out-of-bounds read yields NaN (`none`), which then
propagates through the remaining additions.  No exception is ever thrown. -/
def calculateRSS (observed : List Obs) (predicted : List ℚ) : Option ℚ :=
  rssAux predicted 0 (some 0) observed

/-- RSS of the dataset against the model predictions at the given parameters
(`calculateRSS(data, data.map(d => emaxModel(d.x, E0, Emax, ED50)))` with the
two lists of equal length, hence a finite value). -/
def rssAt (data : List Obs) (Emax ED50 : ℚ) : ℚ :=
  rssVal data (data.map fun d => emaxModel d.x 100 Emax ED50)

/-- The fixed finite-difference step `delta = 0.001` of the source. -/
def fdDelta : ℚ := 1 / 1000

/-- State of the gradient-descent loop of `optimizeParameters`: current
parameters, best-seen parameters, best-seen RSS (`none` models the initial
`Infinity`), and the current learning rate. -/
structure OptState where
  Emax : ℚ
  ED50 : ℚ
  bEmax : ℚ
  bED50 : ℚ
  bestRSS : Option ℚ
  lr : ℚ
deriving DecidableEq, Repr

/-- Comparison `rss < bestRSS` where `bestRSS` may be `Infinity` (`none`):
every finite value is below `Infinity`. -/
def ltInfty (r : ℚ) : Option ℚ → Bool
  | none => true
  | some b => decide (r < b)

/-- One iteration of the `optimizeParameters` loop (`src/src/App.jsx`,
lines 51-78): record best-seen parameters, forward finite-difference
gradients, descent update, clamp into the box, decay the learning rate when
`iter % 100 === 0`. -/
def optStep (data : List Obs) (iter : ℕ) (s : OptState) : OptState :=
  let rss := rssAt data s.Emax s.ED50
  let isBetter := ltInfty rss s.bestRSS
  let bEmax' := if isBetter then s.Emax else s.bEmax
  let bED50' := if isBetter then s.ED50 else s.bED50
  let bestRSS' := if isBetter then some rss else s.bestRSS
  let gradEmax := (rssAt data (s.Emax + fdDelta) s.ED50 - rss) / fdDelta
  let gradED50 := (rssAt data s.Emax (s.ED50 + fdDelta) - rss) / fdDelta
  let Emax' := max 0 (min 100 (s.Emax - s.lr * gradEmax))
  let ED50' := max (1 / 100) (min 10 (s.ED50 - s.lr * gradED50))
  let lr' := if iter % 100 = 0 then s.lr * (19 / 20) else s.lr
  ⟨Emax', ED50', bEmax', bED50', bestRSS', lr'⟩

/-- Running the loop for `n` iterations (`for (let iter = 0; iter < n; ...)`). -/
def optIter (data : List Obs) (n : ℕ) (s : OptState) : OptState :=
  (List.range n).foldl (fun st i => optStep data i st) s

/-- `optimizeParameters(data, initialParams, iterations, learningRate)`:
returns the best-seen parameter pair.  `bestParams` starts at the initial
parameters and `bestRSS` at `Infinity`. -/
def optimizeParameters (data : List Obs) (initEmax initED50 : ℚ)
    (iterations : ℕ) (learningRate : ℚ) : ℚ × ℚ :=
  let s := optIter data iterations
    ⟨initEmax, initED50, initEmax, initED50, none, learningRate⟩
  (s.bEmax, s.bED50)

/-- Admissible box of the optimizer's projection: `Emax ∈ [0,100]`,
`ED50 ∈ [0.01,10]`. -/
def inBox (p : ℚ × ℚ) : Prop :=
  0 ≤ p.1 ∧ p.1 ≤ 100 ∧ 1 / 100 ≤ p.2 ∧ p.2 ≤ 10

instance (p : ℚ × ℚ) : Decidable (inBox p) := by
  unfold inBox
  exact inferInstance

/-- JavaScript-style absolute value lifted over the non-finite marker. -/
def jsAbs (a : Option ℚ) : Option ℚ := a.map (fun x => |x|)

/-- JavaScript-style negation lifted over the non-finite marker. -/
def jsNeg (a : Option ℚ) : Option ℚ := a.map (fun x => -x)

/-- JavaScript-style product: a product of finite numbers is finite; a
non-finite operand (`none`) propagates. -/
def jsMulQ (a b : Option ℚ) : Option ℚ :=
  a.bind fun x => b.map fun y => x * y

/-- JavaScript-style quotient: division by zero yields a non-finite value
(`Infinity` or `NaN`), collapsed to `none`; a non-finite operand propagates. -/
def jsDivQ (a b : Option ℚ) : Option ℚ :=
  a.bind fun x => b.bind fun y => if y = 0 then none else some (x / y)

/-- A value is a non-negative (finite) number; `NaN`/`Infinity` (`none`) is not. -/
def jsNonneg : Option ℚ → Prop
  | none => False
  | some q => 0 ≤ q

instance (a : Option ℚ) : Decidable (jsNonneg a) := by
  unfold jsNonneg
  cases a <;> exact inferInstance

/-- Halved second finite difference of the RSS in the `Emax` direction
(`H11 = d2RSS_dEmax2 / 2` in `calculateCovarianceMatrix`). -/
def covH11 (data : List Obs) (Emax ED50 : ℚ) : ℚ :=
  ((rssAt data (Emax + fdDelta) ED50 + rssAt data (Emax - fdDelta) ED50 -
      2 * rssAt data Emax ED50) / (fdDelta * fdDelta)) / 2

/-- Halved second finite difference of the RSS in the `ED50` direction
(`H22 = d2RSS_dED502 / 2`). -/
def covH22 (data : List Obs) (Emax ED50 : ℚ) : ℚ :=
  ((rssAt data Emax (ED50 + fdDelta) + rssAt data Emax (ED50 - fdDelta) -
      2 * rssAt data Emax ED50) / (fdDelta * fdDelta)) / 2

/-- Halved mixed finite difference of the RSS (`H12 = d2RSS_dEmaxdED50 / 2`). -/
def covH12 (data : List Obs) (Emax ED50 : ℚ) : ℚ :=
  ((rssAt data (Emax + fdDelta) (ED50 + fdDelta) -
      rssAt data (Emax + fdDelta) (ED50 - fdDelta) -
      rssAt data (Emax - fdDelta) (ED50 + fdDelta) +
      rssAt data (Emax - fdDelta) (ED50 - fdDelta)) / (4 * (fdDelta * fdDelta))) / 2

/-- Determinant `H11 * H22 - H12 * H12` of the halved finite-difference
Hessian. -/
def covDet (data : List Obs) (Emax ED50 : ℚ) : ℚ :=
  covH11 data Emax ED50 * covH22 data Emax ED50 -
    covH12 data Emax ED50 * covH12 data Emax ED50

/-- Residual variance `sigma2 = rss / (data.length - 2)`; for a dataset of
exactly two points the denominator is zero and the JavaScript value is
non-finite (`none`). -/
def covSigma2 (data : List Obs) (Emax ED50 : ℚ) : Option ℚ :=
  jsDivQ (some (rssAt data Emax ED50)) (some ((data.length : ℚ) - 2))

/-- The covariance-matrix record returned by `calculateCovarianceMatrix`
(the `covMatrix` field; the `standardErrors` field, square roots of these
entries, is not needed by any claim and is not modelled). -/
structure CovQ where
  var_Emax : Option ℚ
  var_ED50 : Option ℚ
  cov_Emax_ED50 : Option ℚ
deriving DecidableEq, Repr

/-- `calculateCovarianceMatrix(data, params)` from `src/src/App.jsx`
(`covMatrix` part): on `det <= 0` fall back to
`{|sigma2/H11|, |sigma2/H22|, 0}`, otherwise `sigma2 * inv(H)`. -/
def calculateCovarianceMatrix (data : List Obs) (Emax ED50 : ℚ) : CovQ :=
  let sigma2 := covSigma2 data Emax ED50
  let H11 := covH11 data Emax ED50
  let H22 := covH22 data Emax ED50
  let H12 := covH12 data Emax ED50
  let det := covDet data Emax ED50
  if det ≤ 0 then
    ⟨jsAbs (jsDivQ sigma2 (some H11)), jsAbs (jsDivQ sigma2 (some H22)), some 0⟩
  else
    ⟨jsDivQ (jsMulQ sigma2 (some H22)) (some det),
     jsDivQ (jsMulQ sigma2 (some H11)) (some det),
     jsDivQ (jsMulQ (jsNeg sigma2) (some H12)) (some det)⟩

/-- The 2x2 matrix represented by a covariance record. -/
def covToMat (c : CovQ) : Matrix (Fin 2) (Fin 2) (Option ℚ) :=
  !![c.var_Emax, c.cov_Emax_ED50; c.cov_Emax_ED50, c.var_ED50]

/-- Accumulated sums `(I11, I12, I22)` of products of the log-scale
derivatives over the dose list, as in `calculateExpectedInformation`
(`src/unnamed/part_001`, lines 54-70).  The source also computes
`Math.log(Emax)` and `Math.log(ED50)` but never uses them. -/
def infoSums (doses : List ℚ) (Emax ED50 : ℚ) : ℚ × ℚ × ℚ :=
  doses.foldl
    (fun acc x =>
      let dy1 := -(x / (ED50 + x)) * Emax
      let dy2 := (Emax * x * ED50) / (ED50 + x) ^ (2 : ℕ)
      (acc.1 + dy1 * dy1, acc.2.1 + dy1 * dy2, acc.2.2 + dy2 * dy2))
    (0, 0, 0)

/-- Determinant `I11 * I22 - I12 * I12` of the expected Fisher information
matrix after scaling each entry by `1 / sigma^2`. -/
def fisherDet (doses : List ℚ) (Emax ED50 sigma : ℚ) : ℚ :=
  let s := infoSums doses Emax ED50
  let sigma2 := sigma * sigma
  (s.1 / sigma2) * (s.2.2 / sigma2) - (s.2.1 / sigma2) * (s.2.1 / sigma2)

/-- `calculateExpectedInformation(doses, params, sigma)`: build the log-scale
information matrix, return `null` (`none`) unless it is positive definite,
otherwise invert and transform to the natural scale by the delta method,
returning `(var_Emax, var_ED50, cov_Emax_ED50)`. -/
def calculateExpectedInformation (doses : List ℚ) (Emax ED50 sigma : ℚ) :
    Option (ℚ × ℚ × ℚ) :=
  let s := infoSums doses Emax ED50
  let sigma2 := sigma * sigma
  let I11 := s.1 / sigma2
  let I12 := s.2.1 / sigma2
  let I22 := s.2.2 / sigma2
  let det := fisherDet doses Emax ED50 sigma
  if det ≤ 0 ∨ I11 ≤ 0 ∨ I22 ≤ 0 then none
  else
    some (Emax * Emax * (I22 / det), ED50 * ED50 * (I11 / det),
      Emax * ED50 * (-I12 / det))

section Sampler

variable {K : Type} [LinearOrderedField K]
variable [DecidableEq K] [DecidableRel (α := K) (· < ·)] [DecidableRel (α := K) (· ≤ ·)]

/-- JavaScript-style subtraction (non-finite propagates).  The correlated
sampler is stated over the real numbers (instantiating `K := ℝ`), since it
takes square roots; the square-root function is an explicit argument so that
the definitions stay executable over any ordered field. -/
def jsSubR (a b : Option K) : Option K :=
  a.bind fun x => b.map fun y => x - y

/-- JavaScript-style product (non-finite propagates). -/
def jsMulR (a b : Option K) : Option K :=
  a.bind fun x => b.map fun y => x * y

/-- JavaScript-style quotient: division by zero is non-finite. -/
def jsDivR (a b : Option K) : Option K :=
  a.bind fun x => b.bind fun y => if y = 0 then none else some (x / y)

/-- `Math.sqrt`: the square root of a negative number is NaN (`none`). -/
def jsSqrtR (sqrt : K → K) (a : Option K) : Option K :=
  a.bind fun x => if x < 0 then none else some (sqrt x)

/-- Cholesky entry `L11 = Math.sqrt(var_Emax)`. -/
def choleskyL11 (sqrt : K → K) (varA : K) : Option K := jsSqrtR sqrt (some varA)

/-- Cholesky entry `L21 = cov_Emax_ED50 / L11`. -/
def choleskyL21 (sqrt : K → K) (varA covAB : K) : Option K :=
  jsDivR (some covAB) (choleskyL11 sqrt varA)

/-- Cholesky entry `L22 = Math.sqrt(var_ED50 - L21 * L21)`. -/
def choleskyL22 (sqrt : K → K) (varA varB covAB : K) : Option K :=
  jsSqrtR sqrt
    (jsSubR (some varB) (jsMulR (choleskyL21 sqrt varA covAB) (choleskyL21 sqrt varA covAB)))

/-- `sampleMultivariateNormal(mean, covMatrix, numSamples)` from
`src/src/App.jsx` lines 162-192: Cholesky-factorize the covariance; if
`isNaN(L22) || L22 <= 0`, return the empty list; otherwise transform
independent standard normal pairs.  The Box-Muller draws are injected as the
list `zs` (one standard-normal pair per requested sample), abstracting
`Math.random`.  A non-finite `L11` or `L21` always yields a non-finite `L22`
(propagation), so matching on all three entries is faithful to the source's
single `isNaN(L22) || L22 <= 0` test. -/
def sampleMultivariateNormal (sqrt : K → K) (meanA meanB varA varB covAB : K)
    (zs : List (K × K)) : List (K × K) :=
  match choleskyL11 sqrt varA, choleskyL21 sqrt varA covAB,
      choleskyL22 sqrt varA varB covAB with
  | some l11, some l21, some l22 =>
      if l22 ≤ 0 then []
      else zs.map fun z => (meanA + l11 * z.1, meanB + l21 * z.1 + l22 * z.2)
  | _, _, _ => []

end Sampler

/-- Dose-dependent coefficient of `Emax` in the model: `emaxModel` is affine
in `Emax` with this slope (zero when the denominator guard fails). -/
def doseFrac (ED50 x : ℚ) : ℚ :=
  if 0 < ED50 ^ (1 : ℕ) + x ^ (1 : ℕ) then
    x ^ (1 : ℕ) / (ED50 ^ (1 : ℕ) + x ^ (1 : ℕ))
  else 0

lemma emax_linear (x E D : ℚ) : emaxModel x 100 E D = 100 - E * doseFrac D x := by
  unfold emaxModel doseFrac
  by_cases h : 0 < D ^ (1 : ℕ) + x ^ (1 : ℕ)
  · simp only [if_pos h]
    rw [mul_div_assoc]
  · simp only [if_neg h]
    ring

lemma rssVal_nil (pred : List ℚ) : rssVal [] pred = 0 := rfl

lemma rssVal_cons (o : Obs) (os : List Obs) (p : ℚ) (ps : List ℚ) :
    rssVal (o :: os) (p :: ps) = (o.y - p) * (o.y - p) + rssVal os ps := by
  simp [rssVal]

lemma rssVal_nonneg (obs : List Obs) (pred : List ℚ) : 0 ≤ rssVal obs pred := by
  refine List.sum_nonneg ?_
  intro q hq
  simp only [List.mem_map] at hq
  obtain ⟨p, -, rfl⟩ := hq
  exact mul_self_nonneg _

lemma rssVal_eq_zero_iff (obs : List Obs) (pred : List ℚ) :
    rssVal obs pred = 0 ↔ ∀ p ∈ obs.zip pred, p.1.y = p.2 := by
  induction obs generalizing pred with
  | nil => simp [rssVal]
  | cons o os ih =>
      cases pred with
      | nil => simp [rssVal]
      | cons p ps =>
          rw [rssVal_cons, List.zip_cons_cons]
          constructor
          · intro h
            have h1 : 0 ≤ (o.y - p) * (o.y - p) := mul_self_nonneg _
            have h2 : 0 ≤ rssVal os ps := rssVal_nonneg os ps
            have hz1 : (o.y - p) * (o.y - p) = 0 := by linarith
            have hz2 : rssVal os ps = 0 := by linarith
            intro q hq
            rcases List.mem_cons.mp hq with rfl | hmem
            · have := mul_self_eq_zero.mp hz1
              simpa [sub_eq_zero] using this
            · exact (ih ps).mp hz2 q hmem
          · intro h
            have hz1 : o.y = p := h (o, p) (List.mem_cons_self _ _)
            have hz2 : rssVal os ps = 0 :=
              (ih ps).mpr fun q hq => h q (List.mem_cons_of_mem _ hq)
            rw [hz2, hz1]
            ring

lemma rssAux_none (pred : List ℚ) :
    ∀ (obs : List Obs) (i : ℕ), rssAux pred i none obs = none := by
  intro obs
  induction obs with
  | nil => intro i; rfl
  | cons o os ih =>
      intro i
      simp only [rssAux, Option.none_bind]
      exact ih (i + 1)

lemma rssAux_some (pred : List ℚ) :
    ∀ (obs : List Obs) (i : ℕ) (s : ℚ), i + obs.length ≤ pred.length →
      rssAux pred i (some s) obs = some (s + rssVal obs (pred.drop i)) := by
  intro obs
  induction obs with
  | nil => intro i s _; simp [rssAux, rssVal]
  | cons o os ih =>
      intro i s h
      have hi : i < pred.length := by
        simp only [List.length_cons] at h
        omega
      have hget : pred.get? i = some (pred.get ⟨i, hi⟩) := List.get?_eq_get hi
      have hdrop : pred.drop i = pred.get ⟨i, hi⟩ :: pred.drop (i + 1) :=
        List.drop_eq_get_cons hi
      simp only [rssAux, hget, Option.some_bind, Option.map_some']
      rw [ih (i + 1) _ (by simp only [List.length_cons] at h; omega)]
      rw [hdrop, rssVal_cons]
      ring_nf

lemma rssAux_oob (pred : List ℚ) :
    ∀ (obs : List Obs) (i : ℕ) (s : ℚ), i ≤ pred.length →
      pred.length < i + obs.length → rssAux pred i (some s) obs = none := by
  intro obs
  induction obs with
  | nil => intro i s h1 h2; simp only [List.length_nil] at h2; omega
  | cons o os ih =>
      intro i s h1 h2
      by_cases hi : i < pred.length
      · have hget : pred.get? i = some (pred.get ⟨i, hi⟩) := List.get?_eq_get hi
        simp only [rssAux, hget, Option.some_bind, Option.map_some']
        exact ih (i + 1) _ (by omega) (by simp only [List.length_cons] at h2; omega)
      · have hget : pred.get? i = none := List.get?_eq_none.mpr (by omega)
        simp only [rssAux, hget, Option.some_bind, Option.map_none']
        exact rssAux_none pred os (i + 1)

lemma calculateRSS_eq_some (obs : List Obs) (pred : List ℚ)
    (h : obs.length ≤ pred.length) :
    calculateRSS obs pred = some (rssVal obs pred) := by
  have := rssAux_some pred obs 0 0 (by omega)
  simpa [calculateRSS, List.drop_zero] using this

lemma calculateRSS_eq_none (obs : List Obs) (pred : List ℚ)
    (h : pred.length < obs.length) :
    calculateRSS obs pred = none :=
  rssAux_oob pred obs 0 0 (Nat.zero_le _) (by omega)

/-- Claim C2 (amended): `calculateRSS` never raises an error.  When
`predicted` is at least as long as `observed` it returns the finite value
`Σ (observed_i - predicted_i)^2` over the observed indices, which is
non-negative and zero exactly when predicted matches observed pointwise;
when `predicted` is shorter, the out-of-bounds access makes the result NaN
(`none`), still without raising. -/
theorem calculateRSS_spec (obs : List Obs) (pred : List ℚ) :
    (obs.length ≤ pred.length →
        calculateRSS obs pred = some (rssVal obs pred) ∧
        0 ≤ rssVal obs pred ∧
        (rssVal obs pred = 0 ↔ ∀ p ∈ obs.zip pred, p.1.y = p.2)) ∧
    (pred.length < obs.length → calculateRSS obs pred = none) :=
  ⟨fun h => ⟨calculateRSS_eq_some obs pred h, rssVal_nonneg obs pred,
      rssVal_eq_zero_iff obs pred⟩,
   fun h => calculateRSS_eq_none obs pred h⟩

/-- Claim C2, counterexample to the claim as stated: for sequences of unequal
lengths (`observed` of length 1, `predicted` of length 2) `calculateRSS`
raises no error; it returns the plain number `0`. -/
theorem calculateRSS_unequal_no_error_cex :
    [Obs.mk 0 5].length ≠ [(5 : ℚ), 7].length ∧
      calculateRSS [Obs.mk 0 5] [(5 : ℚ), 7] = some 0 := by
  with_unfolding_all decide

/-- Claim C2, witness: the equal-length branch of `calculateRSS_spec`
evaluated on a concrete two-point input. -/
theorem calculateRSS_spec_witness :
    [Obs.mk 1 3, Obs.mk 2 5].length ≤ [(3 : ℚ), 4].length ∧
      calculateRSS [Obs.mk 1 3, Obs.mk 2 5] [(3 : ℚ), 4] =
        some (rssVal [Obs.mk 1 3, Obs.mk 2 5] [(3 : ℚ), 4]) :=
  ⟨by decide, ((calculateRSS_spec [Obs.mk 1 3, Obs.mk 2 5] [(3 : ℚ), 4]).1 (by decide)).1⟩


/-- Claim C8: for `dose >= 0` and `potency > 0` the evaluator computes
`baseline - maxEffect * dose / (potency + dose)`; when the denominator
`potency + dose` is zero it returns `baseline`; at `dose = 0` with
`potency > 0` it returns exactly `baseline` for any `maxEffect`. -/
theorem emaxModel_eval_spec (dose base Emax ED50 : ℚ) :
    (0 ≤ dose → 0 < ED50 →
        emaxModel dose base Emax ED50 = base - Emax * dose / (ED50 + dose)) ∧
    (ED50 + dose = 0 → emaxModel dose base Emax ED50 = base) ∧
    (0 < ED50 → emaxModel 0 base Emax ED50 = base) := by
  refine ⟨?_, ?_, ?_⟩
  · intro h1 h2
    have hden : 0 < ED50 + dose := by linarith
    simp only [emaxModel, pow_one]
    rw [if_pos hden]
  · intro h
    have hden : ¬ 0 < ED50 + dose := by
      rw [h]
      exact lt_irrefl 0
    simp only [emaxModel, pow_one]
    rw [if_neg hden, sub_zero]
  · intro h
    have hden : 0 < ED50 + (0 : ℚ) := by linarith
    simp only [emaxModel, pow_one]
    rw [if_pos hden]
    simp

/-- Claim C8, witness: the formula branch at `(dose, base, Emax, ED50)
= (2, 100, 80, 1)` and the `dose = 0` branch at `(0, 100, 80, 1)`. -/
theorem emaxModel_eval_spec_witness :
    emaxModel 2 100 80 1 = 100 - 80 * 2 / (1 + 2) ∧ emaxModel 0 100 80 1 = 100 :=
  ⟨(emaxModel_eval_spec 2 100 80 1).1 (by norm_num) (by norm_num),
   (emaxModel_eval_spec 0 100 80 1).2.2 (by norm_num)⟩

/-- Claim C9: with baseline fixed, `maxEffect > 0` and `potency > 0`, the
model evaluator is non-increasing in dose. -/
theorem emaxModel_antitone (base Emax ED50 d1 d2 : ℚ) (hE : 0 < Emax)
    (hD : 0 < ED50) (h1 : 0 ≤ d1) (h12 : d1 ≤ d2) :
    emaxModel d2 base Emax ED50 ≤ emaxModel d1 base Emax ED50 := by
  have hden1 : 0 < ED50 + d1 := by linarith
  have hden2 : 0 < ED50 + d2 := by linarith
  simp only [emaxModel, pow_one]
  rw [if_pos hden1, if_pos hden2]
  have key : Emax * d1 / (ED50 + d1) ≤ Emax * d2 / (ED50 + d2) := by
    rw [div_le_div_iff hden1 hden2]
    have h3 : Emax * d1 * ED50 ≤ Emax * d2 * ED50 :=
      mul_le_mul_of_nonneg_right (mul_le_mul_of_nonneg_left h12 hE.le) hD.le
    nlinarith [h3]
  linarith

/-- Claim C9, witness: doses `1 ≤ 2` at `(base, Emax, ED50) = (100, 80, 1)`. -/
theorem emaxModel_antitone_witness :
    emaxModel 2 100 80 1 ≤ emaxModel 1 100 80 1 :=
  emaxModel_antitone 100 80 1 1 2 (by norm_num) (by norm_num) (by norm_num)
    (by norm_num)

/-- Claim C10: whenever the denominator `potency + dose` is non-positive (not
only zero), the guard `den > 0` fails, no division happens, and the evaluator
returns exactly `baseline`; the function is total. -/
theorem emaxModel_nonpos_den_baseline (dose base Emax ED50 : ℚ)
    (h : ED50 + dose ≤ 0) : emaxModel dose base Emax ED50 = base := by
  have hden : ¬ 0 < ED50 + dose := by linarith
  simp only [emaxModel, pow_one]
  rw [if_neg hden, sub_zero]

/-- Claim C10, witness: a strictly negative denominator, `ED50 = -3`,
`dose = 1`. -/
theorem emaxModel_nonpos_den_baseline_witness :
    ((-3 : ℚ) + 1 ≤ 0) ∧ emaxModel 1 7 80 (-3) = 7 :=
  ⟨by norm_num, emaxModel_nonpos_den_baseline 1 7 80 (-3) (by norm_num)⟩

lemma optIter_zero (data : List Obs) (s : OptState) : optIter data 0 s = s := rfl

lemma optIter_succ (data : List Obs) (n : ℕ) (s : OptState) :
    optIter data (n + 1) s = optStep data n (optIter data n s) := by
  simp [optIter, List.range_succ, List.foldl_append]

lemma clamp_mem_box (a b : ℚ) :
    inBox (max 0 (min 100 a), max (1 / 100) (min 10 b)) :=
  ⟨le_max_left _ _, max_le (by norm_num) (min_le_left _ _),
   le_max_left _ _, max_le (by norm_num) (min_le_left _ _)⟩

lemma optStep_inv (data : List Obs) (iter : ℕ) (s : OptState)
    (h1 : inBox (s.Emax, s.ED50)) (h2 : inBox (s.bEmax, s.bED50)) :
    inBox ((optStep data iter s).Emax, (optStep data iter s).ED50) ∧
      inBox ((optStep data iter s).bEmax, (optStep data iter s).bED50) := by
  unfold optStep
  refine ⟨clamp_mem_box _ _, ?_⟩
  by_cases hb : ltInfty (rssAt data s.Emax s.ED50) s.bestRSS
  · simpa [hb] using h1
  · simpa [hb] using h2

lemma optIter_inv (data : List Obs) :
    ∀ (n : ℕ) (s : OptState), inBox (s.Emax, s.ED50) → inBox (s.bEmax, s.bED50) →
      inBox ((optIter data n s).Emax, (optIter data n s).ED50) ∧
        inBox ((optIter data n s).bEmax, (optIter data n s).bED50) := by
  intro n
  induction n with
  | zero => intro s h1 h2; exact ⟨h1, h2⟩
  | succ n ih =>
      intro s h1 h2
      rw [optIter_succ]
      obtain ⟨g1, g2⟩ := ih s h1 h2
      exact optStep_inv data n _ g1 g2

/-- Claim C1 (amended): whenever the initial parameter pair lies inside the
admissible box `Emax ∈ [0,100]`, `ED50 ∈ [0.01,10]`, the pair returned by
`optimizeParameters` lies inside the box, for every dataset, iteration count
and learning rate.  (Unconstrained initial points can be returned unchanged,
so the restriction on the initial pair is necessary.) -/
theorem optimize_box_of_inBox (data : List Obs) (iE iD lr0 : ℚ) (n : ℕ)
    (h : inBox (iE, iD)) :
    inBox (optimizeParameters data iE iD n lr0) := by
  unfold optimizeParameters
  exact (optIter_inv data n ⟨iE, iD, iE, iD, none, lr0⟩ h h).2

/-- Claim C1, counterexample to the claim as stated: on the dataset
`[(0,100), (0,100), (0,100)]` (on which the RSS is identically zero because a
zero dose always predicts the baseline), starting from the out-of-box initial
pair `(Emax, ED50) = (200, 50)`, two iterations of the optimizer return the
initial pair itself: the best-seen tracker records the pre-clamp initial
parameters at iteration 0 and no later clamped iterate beats them. -/
theorem optimize_escapes_box_cex :
    ¬ inBox (optimizeParameters [Obs.mk 0 100, Obs.mk 0 100, Obs.mk 0 100]
      200 50 2 (1 / 100)) := by
  with_unfolding_all decide

/-- Claim C1, witness: an in-box initial pair `(60, 2)` on the empty dataset
stays in the box after three iterations. -/
theorem optimize_box_of_inBox_witness :
    inBox ((60 : ℚ), (2 : ℚ)) ∧ inBox (optimizeParameters [] 60 2 3 (1 / 100)) :=
  ⟨by norm_num [inBox], optimize_box_of_inBox [] 60 2 (1 / 100) 3 (by norm_num [inBox])⟩

lemma optStep_lr (data : List Obs) (iter : ℕ) (s : OptState) :
    (optStep data iter s).lr = if iter % 100 = 0 then s.lr * (19 / 20) else s.lr :=
  rfl

lemma optIter_lr (data : List Obs) :
    ∀ (n : ℕ) (s : OptState),
      (optIter data n s).lr = s.lr * (19 / 20) ^ ((n + 99) / 100) := by
  intro n
  induction n with
  | zero => intro s; simp [optIter_zero]
  | succ n ih =>
      intro s
      rw [optIter_succ, optStep_lr, ih]
      by_cases h : n % 100 = 0
      · have h2 : (n + 1 + 99) / 100 = (n + 99) / 100 + 1 := by omega
        rw [if_pos h, h2, pow_succ]
        ring
      · have h2 : (n + 1 + 99) / 100 = (n + 99) / 100 := by omega
        rw [if_neg h, h2]

/-- Claim C6 (amended): the learning rate is multiplied by `0.95` at the end
of every iteration whose index is divisible by 100 (iterations 0, 100, 200,
...), so the learning rate entering iteration `i` — the step size its update
uses — is `learningRate * 0.95 ^ ⌈i/100⌉` (written with the floor division
`(i + 99) / 100`).  Only iteration 0 uses the unreduced caller-supplied rate;
iterations 1 through 100 already use `learningRate * 0.95`. -/
theorem learning_rate_decay_spec (data : List Obs) (iE iD lr0 : ℚ) (i : ℕ) :
    (optIter data i ⟨iE, iD, iE, iD, none, lr0⟩).lr =
      lr0 * (19 / 20) ^ ((i + 99) / 100) :=
  optIter_lr data i _

/-- Claim C6, counterexample to the claim as stated: with caller-supplied
learning rate 1, the learning rate entering iteration 1 is already `0.95`,
not the claimed `1 * 0.95 ^ ⌊1/100⌋ = 1`. -/
theorem learning_rate_decay_cex :
    (optIter [] 1 ⟨50, 1, 50, 1, none, 1⟩).lr ≠ (1 : ℚ) * (19 / 20) ^ ((1 : ℕ) / 100) := by
  with_unfolding_all decide

lemma rssAt_cons (d : Obs) (data : List Obs) (E D : ℚ) :
    rssAt (d :: data) E D =
      (d.y - emaxModel d.x 100 E D) * (d.y - emaxModel d.x 100 E D) +
        rssAt data E D := by
  simp only [rssAt, List.map_cons]
  exact rssVal_cons _ _ _ _

lemma rssAt_nonneg (data : List Obs) (E D : ℚ) : 0 ≤ rssAt data E D :=
  rssVal_nonneg _ _

lemma rssAt_second_diff_Emax (data : List Obs) (E D t : ℚ) :
    rssAt data (E + t) D + rssAt data (E - t) D - 2 * rssAt data E D =
      2 * t * t * ((data.map fun d => doseFrac D d.x * doseFrac D d.x).sum) := by
  induction data with
  | nil => simp [rssAt, rssVal]
  | cons d l ih =>
      simp only [rssAt_cons, List.map_cons, List.sum_cons, emax_linear]
      linear_combination ih

lemma covH11_eq (data : List Obs) (E D : ℚ) :
    covH11 data E D = (data.map fun d => doseFrac D d.x * doseFrac D d.x).sum := by
  rw [covH11, rssAt_second_diff_Emax, fdDelta]
  ring

lemma covH11_nonneg (data : List Obs) (E D : ℚ) : 0 ≤ covH11 data E D := by
  rw [covH11_eq]
  refine List.sum_nonneg ?_
  intro q hq
  simp only [List.mem_map] at hq
  obtain ⟨p, -, rfl⟩ := hq
  exact mul_self_nonneg _

/-- Claim C3 (amended): whenever the determinant of the halved
finite-difference Hessian is `<= 0`, the returned covariance matrix is
diagonal-only: the cross-covariance is exactly `0` and each marginal variance
is the absolute value `|sigma2 / H_ii|` (non-negative whenever finite); the
source applies `Math.abs`, so the value can differ in sign from the claimed
`sigma2 / H_ii`. -/
theorem covariance_fallback_spec (data : List Obs) (Emax ED50 : ℚ)
    (h : covDet data Emax ED50 ≤ 0) :
    (calculateCovarianceMatrix data Emax ED50).cov_Emax_ED50 = some 0 ∧
    (calculateCovarianceMatrix data Emax ED50).var_Emax =
      jsAbs (jsDivQ (covSigma2 data Emax ED50) (some (covH11 data Emax ED50))) ∧
    (calculateCovarianceMatrix data Emax ED50).var_ED50 =
      jsAbs (jsDivQ (covSigma2 data Emax ED50) (some (covH22 data Emax ED50))) ∧
    (∀ q, (calculateCovarianceMatrix data Emax ED50).var_Emax = some q → 0 ≤ q) ∧
    (∀ q, (calculateCovarianceMatrix data Emax ED50).var_ED50 = some q → 0 ≤ q) := by
  have hbr : calculateCovarianceMatrix data Emax ED50 =
      ⟨jsAbs (jsDivQ (covSigma2 data Emax ED50) (some (covH11 data Emax ED50))),
       jsAbs (jsDivQ (covSigma2 data Emax ED50) (some (covH22 data Emax ED50))),
       some 0⟩ := by
    unfold calculateCovarianceMatrix
    rw [if_pos h]
  rw [hbr]
  refine ⟨rfl, rfl, rfl, ?_, ?_⟩
  · intro q hq
    simp only [jsAbs, Option.map_eq_some'] at hq
    obtain ⟨x, -, rfl⟩ := hq
    exact abs_nonneg x
  · intro q hq
    simp only [jsAbs, Option.map_eq_some'] at hq
    obtain ⟨x, -, rfl⟩ := hq
    exact abs_nonneg x

/-- Claim C3, counterexample to the claim as stated: for the dataset of three
copies of `(1, 99)` at the point estimate `(Emax, ED50) = (1, 1)`, the
determinant is negative (fallback branch taken), `sigma2 / H22` is negative,
and the returned marginal variance is its absolute value, not `sigma2 / H22`
itself. -/
theorem covariance_fallback_abs_cex :
    covDet [Obs.mk 1 99, Obs.mk 1 99, Obs.mk 1 99] 1 1 ≤ 0 ∧
    (calculateCovarianceMatrix [Obs.mk 1 99, Obs.mk 1 99, Obs.mk 1 99] 1 1).var_ED50 ≠
      jsDivQ (covSigma2 [Obs.mk 1 99, Obs.mk 1 99, Obs.mk 1 99] 1 1)
        (some (covH22 [Obs.mk 1 99, Obs.mk 1 99, Obs.mk 1 99] 1 1)) := by
  with_unfolding_all decide

/-- Claim C3, witness: on the empty dataset the determinant is `0 <= 0` and
the fallback covariance is diagonal-only. -/
theorem covariance_fallback_spec_witness :
    covDet [] 1 1 ≤ 0 ∧ (calculateCovarianceMatrix [] 1 1).cov_Emax_ED50 = some 0 :=
  ⟨by with_unfolding_all decide, (covariance_fallback_spec [] 1 1 (by with_unfolding_all decide)).1⟩

/-- Claim C4 (amended): for every dataset with at least 3 observations and
every point estimate at which the determinant of the halved finite-difference
Hessian is positive, the returned covariance matrix is symmetric and both
marginal variances are non-negative (finite).  (For a 2-point dataset the
residual-variance denominator `n - 2` is zero and the variances are
non-finite, so the size restriction is necessary.) -/
theorem covariance_nondegenerate_spec (data : List Obs) (Emax ED50 : ℚ)
    (hn : 3 ≤ data.length) (hdet : 0 < covDet data Emax ED50) :
    jsNonneg (calculateCovarianceMatrix data Emax ED50).var_Emax ∧
    jsNonneg (calculateCovarianceMatrix data Emax ED50).var_ED50 ∧
    (covToMat (calculateCovarianceMatrix data Emax ED50)).transpose =
      covToMat (calculateCovarianceMatrix data Emax ED50) := by
  have hprod : 0 < covH11 data Emax ED50 * covH22 data Emax ED50 := by
    have := mul_self_nonneg (covH12 data Emax ED50)
    have hd := hdet
    rw [covDet] at hd
    nlinarith
  have h11pos : 0 < covH11 data Emax ED50 := by
    rcases mul_pos_iff.mp hprod with ⟨h1, _⟩ | ⟨h1, _⟩
    · exact h1
    · exact absurd (covH11_nonneg data Emax ED50) (not_le.mpr h1)
  have h22pos : 0 < covH22 data Emax ED50 := by
    rcases mul_pos_iff.mp hprod with ⟨_, h2⟩ | ⟨h1, _⟩
    · exact h2
    · exact absurd (covH11_nonneg data Emax ED50) (not_le.mpr h1)
  have hcvec : ((data.length : ℚ) - 2) ≠ 0 := by
    have h3 : (3 : ℚ) ≤ (data.length : ℚ) := by exact_mod_cast hn
    intro hc
    rw [sub_eq_zero] at hc
    rw [hc] at h3
    norm_num at h3
  have hcpos : 0 < (data.length : ℚ) - 2 := by
    have h3 : (3 : ℚ) ≤ (data.length : ℚ) := by exact_mod_cast hn
    linarith
  have hsig : covSigma2 data Emax ED50 =
      some (rssAt data Emax ED50 / ((data.length : ℚ) - 2)) := by
    simp [covSigma2, jsDivQ, hcvec]
  have hsignn : 0 ≤ rssAt data Emax ED50 / ((data.length : ℚ) - 2) :=
    div_nonneg (rssAt_nonneg data Emax ED50) hcpos.le
  have hbr : calculateCovarianceMatrix data Emax ED50 =
      ⟨jsDivQ (jsMulQ (covSigma2 data Emax ED50) (some (covH22 data Emax ED50)))
          (some (covDet data Emax ED50)),
       jsDivQ (jsMulQ (covSigma2 data Emax ED50) (some (covH11 data Emax ED50)))
          (some (covDet data Emax ED50)),
       jsDivQ (jsMulQ (jsNeg (covSigma2 data Emax ED50)) (some (covH12 data Emax ED50)))
          (some (covDet data Emax ED50))⟩ := by
    unfold calculateCovarianceMatrix
    rw [if_neg (not_le.mpr hdet)]
  refine ⟨?_, ?_, ?_⟩
  · rw [hbr]
    simp only [hsig, jsMulQ, jsDivQ, Option.some_bind, Option.map_some',
      if_neg (ne_of_gt hdet), jsNonneg]
    exact div_nonneg (mul_nonneg hsignn h22pos.le) hdet.le
  · rw [hbr]
    simp only [hsig, jsMulQ, jsDivQ, Option.some_bind, Option.map_some',
      if_neg (ne_of_gt hdet), jsNonneg]
    exact div_nonneg (mul_nonneg hsignn h11pos.le) hdet.le
  · ext i j
    fin_cases i <;> fin_cases j <;> simp [covToMat, Matrix.transpose_apply]

/-- Claim C4, counterexample to the claim as stated: the two-point dataset
`[(1, 250/3), (4, 200/3)]` lies exactly on the model curve at
`(Emax, ED50) = (50, 2)`, the Hessian determinant is positive, yet
`sigma2 = 0 / (2 - 2)` is NaN, so the returned marginal variance is NaN —
not a non-negative number. -/
theorem covariance_nondegenerate_nan_cex :
    0 < covDet [Obs.mk 1 (250 / 3), Obs.mk 4 (200 / 3)] 50 2 ∧
    ¬ jsNonneg (calculateCovarianceMatrix [Obs.mk 1 (250 / 3), Obs.mk 4 (200 / 3)]
        50 2).var_Emax := by
  with_unfolding_all decide

/-- Claim C4, witness: a three-point dataset on the model curve at
`(50, 2)` has positive determinant and at least 3 observations. -/
theorem covariance_nondegenerate_spec_witness :
    (3 ≤ [Obs.mk 1 (250 / 3), Obs.mk 2 75, Obs.mk 4 (200 / 3)].length ∧
      0 < covDet [Obs.mk 1 (250 / 3), Obs.mk 2 75, Obs.mk 4 (200 / 3)] 50 2) ∧
    (jsNonneg (calculateCovarianceMatrix
        [Obs.mk 1 (250 / 3), Obs.mk 2 75, Obs.mk 4 (200 / 3)] 50 2).var_Emax ∧
      jsNonneg (calculateCovarianceMatrix
        [Obs.mk 1 (250 / 3), Obs.mk 2 75, Obs.mk 4 (200 / 3)] 50 2).var_ED50 ∧
      (covToMat (calculateCovarianceMatrix
        [Obs.mk 1 (250 / 3), Obs.mk 2 75, Obs.mk 4 (200 / 3)] 50 2)).transpose =
        covToMat (calculateCovarianceMatrix
          [Obs.mk 1 (250 / 3), Obs.mk 2 75, Obs.mk 4 (200 / 3)] 50 2)) :=
  ⟨⟨by decide, by with_unfolding_all decide⟩,
   covariance_nondegenerate_spec [Obs.mk 1 (250 / 3), Obs.mk 2 75, Obs.mk 4 (200 / 3)]
     50 2 (by decide) (by with_unfolding_all decide)⟩

/-- Claim C7: with every dose identical (`doses = [1,1,1,1]`) and hypothesized
parameters `Emax > 0`, `ED50 > 0` (noise level `sigma > 0`), the expected
information matrix built from the log-scale derivatives is singular — its
determinant is exactly `0`, hence not positive definite — and
`calculateExpectedInformation` surfaces the degenerate design as `none`
rather than a finite covariance. -/
theorem identical_doses_info_singular (Emax ED50 sigma : ℚ)
    (hE : 0 < Emax) (hD : 0 < ED50) (hs : 0 < sigma) :
    fisherDet [1, 1, 1, 1] Emax ED50 sigma = 0 ∧
    calculateExpectedInformation [1, 1, 1, 1] Emax ED50 sigma = none := by
  have hdet : fisherDet [1, 1, 1, 1] Emax ED50 sigma = 0 := by
    unfold fisherDet infoSums
    simp only [List.foldl_cons, List.foldl_nil]
    ring
  refine ⟨hdet, ?_⟩
  unfold calculateExpectedInformation
  rw [if_pos (Or.inl (le_of_eq hdet))]

/-- Claim C7, witness: the hypothesized parameters `(Emax, ED50) = (80, 3/2)`
with assumed noise `sigma = 5`. -/
theorem identical_doses_info_singular_witness :
    ((0 : ℚ) < 80 ∧ (0 : ℚ) < 3 / 2 ∧ (0 : ℚ) < 5) ∧
    (fisherDet [1, 1, 1, 1] 80 (3 / 2) 5 = 0 ∧
      calculateExpectedInformation [1, 1, 1, 1] 80 (3 / 2) 5 = none) :=
  ⟨⟨by norm_num, by norm_num, by norm_num⟩,
   identical_doses_info_singular 80 (3 / 2) 5 (by norm_num) (by norm_num) (by norm_num)⟩

lemma choleskyL22_some_L21 {varA varB covAB v : ℝ}
    (h : choleskyL22 Real.sqrt varA varB covAB = some v) :
    ∃ l21, choleskyL21 Real.sqrt varA covAB = some l21 := by
  unfold choleskyL22 jsSqrtR jsSubR jsMulR at h
  cases h21 : choleskyL21 Real.sqrt varA covAB with
  | none => rw [h21] at h; simp at h
  | some l21 => exact ⟨l21, rfl⟩

lemma choleskyL21_some_L11 {varA covAB l21 : ℝ}
    (h : choleskyL21 Real.sqrt varA covAB = some l21) :
    ∃ l11, choleskyL11 Real.sqrt varA = some l11 := by
  unfold choleskyL21 jsDivR at h
  cases h11 : choleskyL11 Real.sqrt varA with
  | none => rw [h11] at h; simp at h
  | some l11 => exact ⟨l11, rfl⟩

/-- Claim C5: the correlated sampler returns the empty sequence whenever the
Cholesky entry `L22` is not a finite positive number (covariance not positive
definite); in particular the deliberately negative-definite input
`varA = 1, varB = 1, cov = 5` yields the empty sequence; and whenever `L22`
is finite-positive, the draws are exactly
`a = meanA + L11 * z1`, `b = meanB + L21 * z1 + L22 * z2` over the injected
standard-normal pairs. -/
theorem sampleMVN_spec (meanA meanB varA varB covAB : ℝ) (zs : List (ℝ × ℝ)) :
    ((¬ ∃ v, choleskyL22 Real.sqrt varA varB covAB = some v ∧ 0 < v) →
        sampleMultivariateNormal Real.sqrt meanA meanB varA varB covAB zs = []) ∧
    (∀ l11 l21 v, choleskyL11 Real.sqrt varA = some l11 →
        choleskyL21 Real.sqrt varA covAB = some l21 →
        choleskyL22 Real.sqrt varA varB covAB = some v → 0 < v →
        sampleMultivariateNormal Real.sqrt meanA meanB varA varB covAB zs =
          zs.map fun z => (meanA + l11 * z.1, meanB + l21 * z.1 + v * z.2)) ∧
    sampleMultivariateNormal Real.sqrt meanA meanB 1 1 5 zs = [] := by
  refine ⟨?_, ?_, ?_⟩
  · intro hnp
    cases h22 : choleskyL22 Real.sqrt varA varB covAB with
    | none =>
        cases h11 : choleskyL11 Real.sqrt varA with
        | none => simp [sampleMultivariateNormal, h11, h22]
        | some l11 =>
            cases h21 : choleskyL21 Real.sqrt varA covAB with
            | none => simp [sampleMultivariateNormal, h11, h21, h22]
            | some l21 => simp [sampleMultivariateNormal, h11, h21, h22]
    | some v =>
        have hv : ¬ 0 < v := fun hpos => hnp ⟨v, h22, hpos⟩
        obtain ⟨l21, h21⟩ := choleskyL22_some_L21 h22
        obtain ⟨l11, h11⟩ := choleskyL21_some_L11 h21
        simp [sampleMultivariateNormal, h11, h21, h22, le_of_not_lt hv]
  · intro l11 l21 v h11 h21 h22 hv
    simp [sampleMultivariateNormal, h11, h21, h22, not_le.mpr hv]
  · have h11 : choleskyL11 Real.sqrt (1 : ℝ) = some 1 := by
      simp [choleskyL11, jsSqrtR]
    have h21 : choleskyL21 Real.sqrt (1 : ℝ) 5 = some 5 := by
      simp [choleskyL21, jsDivR, h11]
    have h22 : choleskyL22 Real.sqrt (1 : ℝ) 1 5 = none := by
      simp only [choleskyL22, jsSubR, jsMulR, h21, Option.some_bind,
        Option.map_some', jsSqrtR, Option.some_bind]
      norm_num
    simp [sampleMultivariateNormal, h11, h21, h22]

/-- Claim C5, witness: the positive-definite input `varA = 1, varB = 1,
cov = 0` with means `(0, 0)` and a single injected standard-normal pair
`(1, 1)` yields the single draw `(1, 1)` by the Cholesky transformation. -/
theorem sampleMVN_spec_witness :
    sampleMultivariateNormal Real.sqrt 0 0 1 1 0 [((1 : ℝ), (1 : ℝ))] = [(1, 1)] := by
  have h11 : choleskyL11 Real.sqrt (1 : ℝ) = some 1 := by
    simp [choleskyL11, jsSqrtR]
  have h21 : choleskyL21 Real.sqrt (1 : ℝ) 0 = some 0 := by
    simp [choleskyL21, jsDivR, h11]
  have h22 : choleskyL22 Real.sqrt (1 : ℝ) 1 0 = some 1 := by
    simp [choleskyL22, jsSubR, jsMulR, jsSqrtR, h21]
  have h := (sampleMVN_spec 0 0 1 1 0 [((1 : ℝ), (1 : ℝ))]).2.1 1 0 1 h11 h21 h22
    one_pos
  rw [h]
  norm_num
